import Mathlib

/-!
Verification of the Insurance-OCR rule evaluation engine.

This file gives a shallow embedding of the core rule-evaluation code
(`src/check_rules/check_rule_evaluator.py`, `sql_document_checker.py`,
`l1_rule_manager.py`, `sql_rule_queries.py`, `rule_db_manager.py`,
`l2_rule_evaluator.py`) and proves properties of it.  Python strings are
modelled as `List Char`; SQLite access is abstracted into explicit
environment records (catalog lookups, submission oracles, query oracles)
so the pure control flow of the Python functions is preserved verbatim.
-/

namespace InsuranceOCR

/-! ### Python string primitives, modelled over `List Char` -/

/-- Model of Python's `\w` regex class restricted to ASCII: letters, digits, underscore. -/
def isWordChar (c : Char) : Bool := c.isAlpha || c.isDigit || c = '_'

/-- Model of Python's `\s` / `str.strip()` whitespace set. -/
def isPySpace (c : Char) : Bool :=
  c = ' ' || c = '\t' || c = '\n' || c = '\r' || c = '\x0b' || c = '\x0c'

/-- Lowercasing, modelling Python `str.lower()` on ASCII text. -/
def lowerL (s : List Char) : List Char := s.map Char.toLower

/-- Does the subject (second argument) start with the pattern (first argument)? -/
def startsWithL : List Char → List Char → Bool
  | [], _ => true
  | _ :: _, [] => false
  | p :: ps, c :: cs => p = c && startsWithL ps cs

/-- Does the subject end with the pattern? -/
def endsWithL (pat s : List Char) : Bool := startsWithL pat.reverse s.reverse

/-- Model of Python's substring containment `pat in s`. -/
def containsSub (pat : List Char) : List Char → Bool
  | [] => startsWithL pat []
  | c :: cs => startsWithL pat (c :: cs) || containsSub pat cs

/-- Model of Python `str.strip()`. -/
def pyStrip (s : List Char) : List Char :=
  ((s.dropWhile isPySpace).reverse.dropWhile isPySpace).reverse

/-- Model of Python `str.replace(old, new, 1)`: replace the first occurrence. -/
def replaceFirstL (pat repl : List Char) : List Char → List Char
  | [] => []
  | c :: cs =>
    if pat ≠ [] && startsWithL pat (c :: cs) then repl ++ (c :: cs).drop pat.length
    else c :: replaceFirstL pat repl cs

def replaceAllAux (pat repl : List Char) : Nat → List Char → List Char
  | _, [] => []
  | 0, s => s
  | Nat.succ f, c :: cs =>
    if pat ≠ [] && startsWithL pat (c :: cs) then
      repl ++ replaceAllAux pat repl f ((c :: cs).drop pat.length)
    else c :: replaceAllAux pat repl f cs

/-- Model of Python `str.replace(old, new)`: replace all non-overlapping occurrences,
scanning left to right.  (The fuel is an upper bound on the recursion depth; each
step consumes at least one character of the subject.) -/
def replaceAll (s pat repl : List Char) : List Char := replaceAllAux pat repl s.length s

/-! ### The expression evaluator (`_evaluate_logical_expression`)

The Python code substitutes each rule ID by `str(status)`, then repeatedly finds
innermost groups with the regex `([(\[])([\s\w,]+)([)\]])`, parses the group
content with `ast.literal_eval` (validating that all elements are `bool`), reduces
`[...]` groups with `all` and `(...)` groups with `any`, and splices the boolean
literal back into the text (first occurrence).  It returns whether the final text
is exactly `"True"`; an unparseable group returns `False` immediately. -/

def isOpener (c : Char) : Bool := c = '(' || c = '['

def isCloser (c : Char) : Bool := c = ')' || c = ']'

/-- Characters allowed inside a group by the regex class `[\s\w,]`. -/
def isContentChar (c : Char) : Bool := isPySpace c || isWordChar c || c = ','

/-- One match of the innermost-group regex `([(\[])([\s\w,]+)([)\]])`. -/
structure ExprGroup where
  opener : Char
  content : List Char
  closer : Char
deriving DecidableEq, Repr

/-- The full matched text `match.group(0)`. -/
def groupText (g : ExprGroup) : List Char := g.opener :: (g.content ++ [g.closer])

/-- Model of `re.finditer` for the innermost-group regex: scan left to right; a
match needs an opener, a nonempty run of content characters, and then a closer
(the content class excludes all brackets, so the regex engine never backtracks);
after a match, scanning resumes after the matched text; after a failed attempt,
scanning resumes one character later. -/
def findGroupsAux : Nat → List Char → List ExprGroup
  | 0, _ => []
  | _, [] => []
  | Nat.succ f, c :: rest =>
    if isOpener c then
      let content := rest.takeWhile isContentChar
      match rest.dropWhile isContentChar with
      | d :: rest3 =>
        if content ≠ [] && isCloser d then
          ⟨c, content, d⟩ :: findGroupsAux f rest3
        else findGroupsAux f rest
      | [] => findGroupsAux f rest
    else findGroupsAux f rest

def findGroups (s : List Char) : List ExprGroup := findGroupsAux s.length s

/-- Split a character list at commas (model of locating the elements of a Python
list literal `[<content>]` whose content contains only `[\s\w,]` characters). -/
def splitOnComma : List Char → List (List Char)
  | [] => [[]]
  | ',' :: cs => [] :: splitOnComma cs
  | c :: cs =>
    match splitOnComma cs with
    | [] => [[c]]
    | seg :: segs => (c :: seg) :: segs

/-- A single element token evaluates to a Python `bool` under `ast.literal_eval`
exactly when, after stripping, it is the literal `True` or `False` (any other
token either fails to parse or parses to a non-`bool`, and both cases make the
Python code return `False`). -/
def tokenToBool (t : List Char) : Option Bool :=
  if pyStrip t = "True".toList then some true
  else if pyStrip t = "False".toList then some false
  else none

/-- Model of `ast.literal_eval("[" + content + "]")` followed by the
`all(isinstance(x, bool) ...)` validation: `none` means the Python code takes
the exception branch and returns `False`.  A lone all-whitespace content is the
empty list `[]`; a trailing comma is permitted; every element must strip to
`True` or `False`. -/
def parseBools (content : List Char) : Option (List Bool) :=
  match splitOnComma content with
  | [] => none
  | [t] => if pyStrip t = ([] : List Char) then some [] else (tokenToBool t).map ([·])
  | seg :: segs =>
    let all := seg :: segs
    let core := if pyStrip (all.getLastD []) = ([] : List Char) then all.dropLast else all
    core.mapM tokenToBool

def pyBoolStr (b : Bool) : List Char := if b then "True".toList else "False".toList

/-- Reduce one matched group: `all` for `[`-groups, `any` for `(`-groups. -/
def applyGroup (g : ExprGroup) : Option Bool :=
  (parseBools g.content).map (fun bl => if g.opener = '[' then bl.all id else bl.any id)

/-- The body of the `for match in inner_group_pattern.finditer(expression)` loop:
each match (found on the snapshot taken at loop entry) is reduced and its text is
substituted (first occurrence) into the current string; a parse failure aborts
with `False` (`none`). -/
def processMatches : List ExprGroup → List Char → Option (List Char)
  | [], e => some e
  | g :: gs, e =>
    match applyGroup g with
    | none => none
    | some b => processMatches gs (replaceFirstL (groupText g) (pyBoolStr b) e)

def countOpeners (s : List Char) : Nat := (s.filter isOpener).length

/-- The `while inner_group_pattern.search(expression)` loop.  Each iteration
removes at least one opening bracket, so `countOpeners e + 1` fuel suffices. -/
def evalExprLoop : Nat → List Char → Bool
  | 0, e => e == "True".toList
  | Nat.succ f, e =>
    match findGroups e with
    | [] => e == "True".toList
    | g :: gs =>
      match processMatches (g :: gs) e with
      | none => false
      | some e2 => evalExprLoop f e2

/-- Model of `_evaluate_logical_expression(expression, rule_statuses)`
(`check_rule_evaluator.py` lines 11–49).  `statuses` is the rule-status dict in
insertion order; each rule ID is replaced by `str(status)` in turn, then the
group-reduction loop runs. -/
def evaluate_logical_expression (expr : String) (statuses : List (String × Bool)) : Bool :=
  let e := statuses.foldl (fun acc p => replaceAll acc p.1.toList (pyBoolStr p.2)) expr.toList
  evalExprLoop (countOpeners e + 1) e

/-! ### Rule-ID extraction

`evaluate_submission_logic` collects leaf IDs with `re.findall(r'\b(CH\d{2})\b', ...)`
(exactly two digits), while `get_parsed_rules_for_procedure` in
`rule_db_manager.py` uses `re.findall(r'\b(CH\d{2,})\b', ...)` (two or more
digits).  Both are modelled by one scanner parameterised on the digit count. -/

/-- Attempt to match `CH` + digits with a word boundary on each side at the
current position (`prevWord` = the preceding character, if any, was a word
character).  On success, returns the digit run and the remainder after it. -/
def chBoundaryOk : List Char → Bool
  | [] => true
  | d :: _ => !isWordChar d

def chLenOk (twoPlus : Bool) (digits : List Char) : Bool :=
  if twoPlus then decide (2 ≤ digits.length) else decide (digits.length = 2)

def chMatchAt (twoPlus : Bool) (prevWord : Bool) (s : List Char) :
    Option (List Char × List Char) :=
  if prevWord then none
  else
    match s with
    | c1 :: c2 :: rest2 =>
      if c1 = 'C' ∧ c2 = 'H' then
        if chLenOk twoPlus (rest2.takeWhile Char.isDigit) &&
            chBoundaryOk (rest2.dropWhile Char.isDigit) then
          some (rest2.takeWhile Char.isDigit, rest2.dropWhile Char.isDigit)
        else none
      else none
    | _ => none

def chScanAux (twoPlus : Bool) : Nat → Bool → List Char → List String
  | 0, _, _ => []
  | _, _, [] => []
  | Nat.succ f, prevWord, c :: rest =>
    match chMatchAt twoPlus prevWord (c :: rest) with
    | some (digits, rest3) =>
      String.mk ('C' :: 'H' :: digits) :: chScanAux twoPlus f true rest3
    | none => chScanAux twoPlus f (isWordChar c) rest

/-- Model of `re.findall(r'\b(CH\d{2})\b', expression_string)` in
`evaluate_submission_logic` (`check_rule_evaluator.py` line 73). -/
def find_rule_ids (s : String) : List String := chScanAux false (s.length + 1) false s.toList

/-- Model of `re.findall(r'\b(CH\d{2,})\b', raw_rules_string)` in
`get_parsed_rules_for_procedure` (`rule_db_manager.py` line 122). -/
def parse_rule_ids (s : String) : List String := chScanAux true (s.length + 1) false s.toList

/-! ### `evaluate_submission_logic`

The database accesses of `evaluate_submission_logic` are abstracted into an
environment: `catalog` models `fetch_rule_descriptions_for_ids_from_db` (a rule
ID maps to its description, or to `none` when the `Check_Rules` table has no row
for it — the Python helper simply omits missing IDs from the returned dict), and
`submitted` models `check_document_submission_status claim_id description`. -/

structure RuleEnv where
  catalog : String → Option String
  submitted : String → String → Bool

/-- The failure message appended for a rule ID with no catalog entry. -/
def notFoundMsg (rule_id : String) : String :=
  rule_id ++ ": Rule definition not found in database."

/-- The `for rule_id in rule_ids` loop of `evaluate_submission_logic`
(`check_rule_evaluator.py` lines 83–98), with the `rule_statuses` dict (in
insertion order) and `failed_rules_descriptions` list as accumulators. -/
def processRulesAux (env : RuleEnv) (claim_id : String) :
    List String → List (String × Bool) → List String → (List (String × Bool)) × List String
  | [], sts, fails => (sts, fails)
  | rid :: rest, sts, fails =>
    match env.catalog rid with
    | none =>
      processRulesAux env claim_id rest (sts ++ [(rid, false)]) (fails ++ [notFoundMsg rid])
    | some desc =>
      let s := env.submitted claim_id desc
      processRulesAux env claim_id rest (sts ++ [(rid, s)])
        (if s then fails else fails ++ [desc])

def process_rules (env : RuleEnv) (claim_id : String) (ids : List String) :
    (List (String × Bool)) × List String :=
  processRulesAux env claim_id ids [] []

/-- The submission boolean assigned to one rule ID by the loop: `False` when the
catalog has no description, otherwise the submission-status check on the
description. -/
def ruleStatus (env : RuleEnv) (claim_id rid : String) : Bool :=
  match env.catalog rid with
  | none => false
  | some desc => env.submitted claim_id desc

/-- The entry such a rule ID contributes to the failure list when it fails. -/
def failEntry (env : RuleEnv) (rid : String) : String :=
  match env.catalog rid with
  | none => notFoundMsg rid
  | some desc => desc

/-- Lexicographic strict comparison of character lists by code point — the
order Python's `sorted` uses on strings.  (Defined by structural recursion so
that it evaluates inside the kernel; it is proved below to agree with the
library order on `String`.) -/
def strLtB : List Char → List Char → Bool
  | [], [] => false
  | [], _ :: _ => true
  | _ :: _, [] => false
  | a :: as, b :: bs => if a < b then true else if b < a then false else strLtB as bs

/-- `a ≤ b` in Python's string order. -/
def pyStrLe (a b : String) : Prop := strLtB b.toList a.toList = false

instance : DecidableRel pyStrLe := fun a b =>
  inferInstanceAs (Decidable (strLtB b.toList a.toList = false))

/-- Model of `sorted(list(set(re.findall(r'\b(CH\d{2})\b', expression_string))))`:
the distinct leaf IDs in ascending string order. -/
def sortedRuleIds (expr : String) : List String :=
  List.insertionSort pyStrLe (find_rule_ids expr).dedup

/-- Model of `evaluate_submission_logic(expression_string, claim_id)`
(`check_rule_evaluator.py` lines 51–103).  An empty expression, or one in which
the leaf-ID regex finds nothing, short-circuits to `(True, [])`. -/
def evaluate_submission_logic (env : RuleEnv) (expression_string claim_id : String) :
    Bool × List String :=
  if expression_string = "" then (true, [])
  else
    let rule_ids := sortedRuleIds expression_string
    if rule_ids = [] then (true, [])
    else
      let p := process_rules env claim_id rule_ids
      (evaluate_logical_expression expression_string p.1, p.2)

/-! ### `check_document_submission_status` (`sql_document_checker.py`)

The claims database is abstracted as a record: `db_exists` models
`os.path.exists(db_path)`; `db_error` models a `sqlite3.Error` (or unexpected
exception) raised anywhere inside the `try` block; `table_exists` models the
`sqlite_master` probe for `PatientData`; `columns` models
`PRAGMA table_info('PatientData')`; `getRow` models
`SELECT ... WHERE claimid = ?` followed by `fetchone()`, returning for an
existing claim row the map from column name to cell value (`none` = SQL NULL,
`some v` = the value's `str()` form). -/

structure ClaimsDB where
  db_exists : Bool
  db_error : Bool
  table_exists : Bool
  columns : List String
  getRow : String → Option (String → Option String)

/-- Model of the keyword extraction: `re.search(r'Is the (.*) submitted\??', kw,
re.IGNORECASE)`.  The engine tries each start position left to right; at a
position where `is the ` matches (case-insensitively), the greedy `.*` selects
the last ` submitted` occurrence on the same line; if none exists the engine
moves to the next start position. -/
def ciStartsWith (pat s : List Char) : Bool := startsWithL (lowerL pat) (lowerL s)

/-- The largest index `k` (before the first newline) at which ` submitted`
matches case-insensitively, scanning `tail`; models the greedy `.*`. -/
def lastSubmittedAux : List Char → Nat → Option Nat → Option Nat
  | [], _, best => best
  | c :: rest, k, best =>
    if c = '\n' then best
    else if ciStartsWith " submitted".toList (c :: rest) then
      lastSubmittedAux rest (k + 1) (some k)
    else lastSubmittedAux rest (k + 1) best

def lastSubmitted (tail : List Char) : Option Nat := lastSubmittedAux tail 0 none

/-- `match.group(1)` of the keyword regex, or `none` when the pattern does not
match anywhere in the description. -/
def extractCore : List Char → Option (List Char)
  | [] => none
  | c :: rest =>
    if ciStartsWith "is the ".toList (c :: rest) then
      match lastSubmitted ((c :: rest).drop 7) with
      | some k => some (((c :: rest).drop 7).take k)
      | none => extractCore rest
    else extractCore rest

/-- `core_keyword.lower().replace(" ", "_")` applied to the extracted group
(stripped) or, when the pattern does not match, to the whole description. -/
def normalizeKeyword (document_keyword : String) : List Char :=
  let core : List Char :=
    match extractCore document_keyword.toList with
    | some g => pyStrip g
    | none => document_keyword.toList
  (lowerL core).map (fun c => if c = ' ' then '_' else c)

/-- The columns of `PatientData` whose lowercased name contains the normalized
keyword as a substring. -/
def relevantColumns (document_keyword : String) (columns : List String) : List String :=
  columns.filter (fun col => containsSub (normalizeKeyword document_keyword) (lowerL col.toList))

/-- Is a fetched cell non-NULL with a non-empty stripped string form? -/
def cellNonEmpty (v : Option String) : Bool :=
  match v with
  | none => false
  | some s => pyStrip s.toList ≠ []

/-- Model of `check_document_submission_status(claim_id, document_keyword, db_path)`
(`sql_document_checker.py` lines 30–125). -/
def check_document_submission_status (claim_id document_keyword : String) (db : ClaimsDB) : Bool :=
  if !db.db_exists then false
  else if claim_id = "" then false
  else if document_keyword = "" then false
  else if db.db_error then false
  else if !db.table_exists then false
  else if db.columns = [] then false
  else
    let relevant := relevantColumns document_keyword db.columns
    if relevant = [] then false
    else
      match db.getRow claim_id with
      | none => false
      | some r => relevant.any (fun col => cellNonEmpty (r col))

/-! ### The field value resolver (`l1_rule_manager.py`, `sql_rule_queries.py`)

Cell values coming back from the claims store (and the sentinel strings the
code produces) are modelled by a small Python-value type. -/

/-- A scalar cell of a fetched SQLite row: NULL, TEXT, or INTEGER (REAL plays
no role in the claims considered). -/
inductive SqlCell where
  | cNull : SqlCell
  | cText : String → SqlCell
  | cInt : Int → SqlCell
deriving DecidableEq, Repr

inductive PyVal where
  | vNone : PyVal
  | vStr : String → PyVal
  | vInt : Int → PyVal
  | vRow : List SqlCell → PyVal
deriving DecidableEq, Repr

/-- A one-column row yields its cell as the Python scalar `val_row[0]`. -/
def cellToVal : SqlCell → PyVal
  | SqlCell.cNull => PyVal.vNone
  | SqlCell.cText s => PyVal.vStr s
  | SqlCell.cInt n => PyVal.vInt n

/-- One row of the `L1_Rules` table as selected by
`SELECT Rule_ID, Rule_Description, sql_query FROM L1_Rules WHERE check_rule_id = ?`.
`sql_query` is `none` for a SQL NULL. -/
structure L1Rule where
  rule_id : String
  description : String
  sql_query : Option String
deriving DecidableEq, Repr

/-- One entry of the list returned by the field value resolver.  The
not-submitted and configuration-error entries built in `l1_rule_manager.py`
carry no `rule_id` key, while `fetch_l1_rule_descriptions_with_values` entries
do; `rule_id` is `none` in the former case. -/
structure L1Entry where
  rule_id : Option String
  description : String
  value : PyVal
deriving DecidableEq, Repr

/-- Outcome of executing one stored extraction query against the claims store:
an exception, `fetchone()` returning no row, or a fetched row of cells. -/
inductive QRes where
  | err : String → QRes
  | noRow : QRes
  | row : List SqlCell → QRes
deriving DecidableEq, Repr

/-- A query oracle: the result of executing a given SQL text for a given claim
ID against the claims database. -/
def QueryOracle := String → String → QRes

/-- Environment for the L1 layer.  `catalog` models
`fetch_rule_descriptions_for_ids_from_db` on the rules DB; `submitted` models
`check_document_submission_status`; `child_descriptions` models
`fetch_l1_rule_descriptions` (`SELECT description FROM L1_Rules WHERE
check_rule_id = ?`); `child_rules` models the row set read by
`fetch_l1_rule_descriptions_with_values`; `rules_db_error` models a
`sqlite3.Error` on the rules-database connection inside that helper. -/
structure L1Env where
  rules_db_exists : Bool
  rules_db_error : Bool
  catalog : String → Option String
  submitted : String → String → Bool
  child_descriptions : String → List String
  child_rules : String → List L1Rule

/-- The per-rule body of `fetch_l1_rule_descriptions_with_values`
(`sql_rule_queries.py` lines 286–306): a falsy `sql_query` leaves the value
`None`; an exception during execution is caught and stored as an in-band error
string; no fetched row gives `"N/A"`; a one-column row gives the scalar; any
other row is kept whole. -/
def runL1Query (oracle : QueryOracle) (claim_id : String) : Option String → PyVal
  | none => PyVal.vNone
  | some sql =>
    if sql = "" then PyVal.vNone
    else
      match oracle sql claim_id with
      | QRes.err e => PyVal.vStr ("Error executing SQL: " ++ e)
      | QRes.noRow => PyVal.vStr "N/A"
      | QRes.row cells =>
        match cells with
        | [c] => cellToVal c
        | cs => PyVal.vRow cs

/-- The `for rule_id, desc, sql_query in rows` loop, with the `results` list as
accumulator. -/
def fetchL1Aux (oracle : QueryOracle) (claim_id : String) :
    List L1Rule → List L1Entry → List L1Entry
  | [], acc => acc
  | r :: rest, acc =>
    fetchL1Aux oracle claim_id rest
      (acc ++ [⟨some r.rule_id, r.description, runL1Query oracle claim_id r.sql_query⟩])

/-- Model of `fetch_l1_rule_descriptions_with_values(rules_db_path,
check_rule_id, claims_db_path, claim_id)` (`sql_rule_queries.py` lines 262–310).
A rules-database error makes the outer `try` return the (empty) partial list. -/
def fetch_l1_rule_descriptions_with_values (env : L1Env) (oracle : QueryOracle)
    (check_rule_id claim_id : String) : List L1Entry :=
  if env.rules_db_error then []
  else fetchL1Aux oracle claim_id (env.child_rules check_rule_id) []

/-- The configuration-error entry returned when the parent description is
missing. -/
def configErrorEntry (check_rule_id : String) : L1Entry :=
  ⟨none, "Configuration error for " ++ check_rule_id, PyVal.vStr "Cannot verify submission"⟩

/-- Model of `get_l1_rules_with_values_for_check_id(check_rule_id, claim_id)`
(`l1_rule_manager.py` lines 20–51).  `if not parent_description` treats both a
missing catalog row and an empty description as a configuration error. -/
def get_l1_rules_with_values_for_check_id (env : L1Env) (oracle : QueryOracle)
    (check_rule_id claim_id : String) : List L1Entry :=
  if !env.rules_db_exists then []
  else if check_rule_id = "" then []
  else if claim_id = "" then []
  else
    match env.catalog check_rule_id with
    | none => [configErrorEntry check_rule_id]
    | some desc =>
      if desc = "" then [configErrorEntry check_rule_id]
      else if !env.submitted claim_id desc then
        (env.child_descriptions check_rule_id).map
          (fun d => ⟨none, d, PyVal.vStr "Not submitted"⟩)
      else fetch_l1_rule_descriptions_with_values env oracle check_rule_id claim_id

/-! ### The semantic judge adapter (`l2_rule_evaluator.py` lines 101–147)

The response-handling tail of `evaluate_l2_rule_with_gemini` is embedded as a
pure function of the prompt and of the outcome of the
`client.models.generate_content` call (a response text, or a raised exception's
string form).  It needs a model of Python's `json.loads`. -/

/-- Python JSON values.  Number lexemes are kept as text (their numeric value
plays no role here). -/
inductive PyJson where
  | jNull : PyJson
  | jBool : Bool → PyJson
  | jNum : String → PyJson
  | jStr : String → PyJson
  | jArr : List PyJson → PyJson
  | jObj : List (String × PyJson) → PyJson

/-- JSON whitespace (strictly smaller than Python's `str.strip` set). -/
def isJsonWs (c : Char) : Bool := c = ' ' || c = '\t' || c = '\n' || c = '\r'

def skipWs (s : List Char) : List Char := s.dropWhile isJsonWs

def hexDigitVal (c : Char) : Option Nat :=
  let n := c.toNat
  if 48 ≤ n && n ≤ 57 then some (n - 48)
  else if 97 ≤ n && n ≤ 102 then some (n - 87)
  else if 65 ≤ n && n ≤ 70 then some (n - 55)
  else none

/-- Parse the body of a JSON string after the opening quote; returns the decoded
content and the remainder after the closing quote.  Unescaped control
characters are rejected (`json.loads` strict mode). -/
def parseJStringAux : Nat → List Char → Option (List Char × List Char)
  | 0, _ => none
  | _, [] => none
  | Nat.succ f, c :: cs =>
    if c = '"' then some ([], cs)
    else if c = '\\' then
      match cs with
      | [] => none
      | e :: cs2 =>
        let simple : Option Char :=
          if e = '"' then some '"'
          else if e = '\\' then some '\\'
          else if e = '/' then some '/'
          else if e = 'b' then some '\x08'
          else if e = 'f' then some '\x0c'
          else if e = 'n' then some '\n'
          else if e = 'r' then some '\r'
          else if e = 't' then some '\t'
          else none
        match simple with
        | some d =>
          match parseJStringAux f cs2 with
          | some (content, rest) => some (d :: content, rest)
          | none => none
        | none =>
          if e = 'u' then
            match cs2 with
            | h1 :: h2 :: h3 :: h4 :: cs3 =>
              match hexDigitVal h1, hexDigitVal h2, hexDigitVal h3, hexDigitVal h4 with
              | some a, some b, some c2, some d2 =>
                match parseJStringAux f cs3 with
                | some (content, rest) =>
                  some (Char.ofNat (((a * 16 + b) * 16 + c2) * 16 + d2) :: content, rest)
                | none => none
              | _, _, _, _ => none
            | _ => none
          else none
    else if c.toNat < 32 then none
    else
      match parseJStringAux f cs with
      | some (content, rest) => some (c :: content, rest)
      | none => none

/-- Lex a JSON number `-?(0|[1-9]\d*)(\.\d+)?([eE][-+]?\d+)?`. -/
def parseNumberLex (s : List Char) : Option (List Char × List Char) :=
  let p := match s with
    | '-' :: t => ((['-'] : List Char), t)
    | _ => (([] : List Char), s)
  match p.2 with
  | [] => none
  | c :: rest0 =>
    if !c.isDigit then none
    else
      let intPart : List Char := if c = '0' then ['0'] else c :: rest0.takeWhile Char.isDigit
      let r1 : List Char := if c = '0' then rest0 else rest0.dropWhile Char.isDigit
      let q := match r1 with
        | '.' :: d :: t =>
          if d.isDigit then
            (('.' :: d :: t.takeWhile Char.isDigit), t.dropWhile Char.isDigit)
          else (([] : List Char), r1)
        | _ => (([] : List Char), r1)
      let r2 := q.2
      let w := match r2 with
        | e :: t =>
          if e = 'e' || e = 'E' then
            let sp := match t with
              | '+' :: u => ((['+'] : List Char), u)
              | '-' :: u => ((['-'] : List Char), u)
              | _ => (([] : List Char), t)
            let ds := sp.2.takeWhile Char.isDigit
            if ds ≠ [] then ((e :: (sp.1 ++ ds)), sp.2.dropWhile Char.isDigit)
            else (([] : List Char), r2)
          else (([] : List Char), r2)
        | [] => (([] : List Char), r2)
      some (p.1 ++ intPart ++ q.1 ++ w.1, w.2)

mutual

/-- Parse one JSON value.  Fuel bounds the recursion; the wrapper supplies
enough for any input of the given length. -/
def parseValueAux : Nat → List Char → Option (PyJson × List Char)
  | 0, _ => none
  | Nat.succ f, s =>
    match skipWs s with
    | [] => none
    | c :: rest =>
      if c = '{' then
        match skipWs rest with
        | '}' :: rest2 => some (PyJson.jObj [], rest2)
        | rest2 => parseMembersAux f rest2 []
      else if c = '[' then
        match skipWs rest with
        | ']' :: rest2 => some (PyJson.jArr [], rest2)
        | rest2 => parseElemsAux f rest2 []
      else if c = '"' then
        match parseJStringAux (rest.length + 1) rest with
        | some (content, rest2) => some (PyJson.jStr (String.mk content), rest2)
        | none => none
      else if startsWithL "true".toList (c :: rest) then
        some (PyJson.jBool true, (c :: rest).drop 4)
      else if startsWithL "false".toList (c :: rest) then
        some (PyJson.jBool false, (c :: rest).drop 5)
      else if startsWithL "null".toList (c :: rest) then
        some (PyJson.jNull, (c :: rest).drop 4)
      else if startsWithL "NaN".toList (c :: rest) then
        some (PyJson.jNum "NaN", (c :: rest).drop 3)
      else if startsWithL "Infinity".toList (c :: rest) then
        some (PyJson.jNum "Infinity", (c :: rest).drop 8)
      else if startsWithL "-Infinity".toList (c :: rest) then
        some (PyJson.jNum "-Infinity", (c :: rest).drop 9)
      else
        match parseNumberLex (c :: rest) with
        | some (lx, rest2) => some (PyJson.jNum (String.mk lx), rest2)
        | none => none

/-- Parse the members of an object after `{` (first member pending). -/
def parseMembersAux : Nat → List Char → List (String × PyJson) →
    Option (PyJson × List Char)
  | 0, _, _ => none
  | Nat.succ f, s, acc =>
    match skipWs s with
    | '"' :: rest =>
      match parseJStringAux (rest.length + 1) rest with
      | some (key, rest2) =>
        match skipWs rest2 with
        | ':' :: rest3 =>
          match parseValueAux f rest3 with
          | some (v, rest4) =>
            match skipWs rest4 with
            | ',' :: rest5 => parseMembersAux f rest5 (acc ++ [(String.mk key, v)])
            | '}' :: rest5 => some (PyJson.jObj (acc ++ [(String.mk key, v)]), rest5)
            | _ => none
          | none => none
        | _ => none
      | none => none
    | _ => none

/-- Parse the elements of an array after `[` (first element pending). -/
def parseElemsAux : Nat → List Char → List PyJson → Option (PyJson × List Char)
  | 0, _, _ => none
  | Nat.succ f, s, acc =>
    match parseValueAux f s with
    | some (v, rest) =>
      match skipWs rest with
      | ',' :: rest2 => parseElemsAux f rest2 (acc ++ [v])
      | ']' :: rest2 => some (PyJson.jArr (acc ++ [v]), rest2)
      | _ => none
    | none => none

end

/-- Model of Python `json.loads`: parse one value and require only whitespace
after it. -/
def pyJsonLoads (s : List Char) : Option PyJson :=
  match parseValueAux (4 * s.length + 8) s with
  | some (j, rest) => if skipWs rest = [] then some j else none
  | none => none

/-- Approximation of the Python `repr`/`str` form of a parsed JSON value, used
only to build the `Incomplete JSON response` reasoning text (string-quote choice
and float normalisation are approximated). -/
def pyReprJson : PyJson → String
  | PyJson.jNull => "None"
  | PyJson.jBool b => if b then "True" else "False"
  | PyJson.jNum lx => lx
  | PyJson.jStr s => "\x27" ++ s ++ "\x27"
  | PyJson.jArr es =>
    "[" ++ String.intercalate ", " (es.attach.map (fun e => pyReprJson e.1)) ++ "]"
  | PyJson.jObj fs =>
    "\x7b" ++ String.intercalate ", "
      (fs.attach.map (fun p => "\x27" ++ p.1.1 ++ "\x27: " ++ pyReprJson p.1.2)) ++ "\x7d"
termination_by j => sizeOf j
decreasing_by
  · have h := List.sizeOf_lt_of_mem e.2
    simp only [PyJson.jArr.sizeOf_spec]
    omega
  · obtain ⟨⟨a, b⟩, hm⟩ := p
    have h := List.sizeOf_lt_of_mem hm
    simp only [PyJson.jObj.sizeOf_spec, Prod.mk.sizeOf_spec] at h ⊢
    omega

/-- The keys demanded of a structured judge response. -/
def requiredKeys : List String :=
  ["primary_source", "comparisons", "overall_decision", "overall_reasoning"]

/-- Model of Python `k in result_json`: key membership for dicts, element
membership for lists, substring for strings; `none` models the `TypeError` the
other value types raise (caught together with `JSONDecodeError`). -/
def pyContainsKey (j : PyJson) (k : String) : Option Bool :=
  match j with
  | PyJson.jObj fs => some (fs.any (fun p => p.1 == k))
  | PyJson.jArr es =>
    some (es.any (fun e => match e with | PyJson.jStr s => s == k | _ => false))
  | PyJson.jStr s => some (containsSub k.toList s.toList)
  | _ => none

/-- `all(k in result_json for k in [...])`; `none` when the membership test
raises `TypeError`. -/
def keysOk (j : PyJson) : Option Bool :=
  match j with
  | PyJson.jObj _ => some (requiredKeys.all (fun k => (pyContainsKey j k).getD false))
  | PyJson.jArr _ => some (requiredKeys.all (fun k => (pyContainsKey j k).getD false))
  | PyJson.jStr _ => some (requiredKeys.all (fun k => (pyContainsKey j k).getD false))
  | _ => none

/-- Case-insensitive match of `"overall_decision"\s*:\s*"(Pass|Fail)"` anchored
at the head of `s`, returning `group(1)` in its original spelling. -/
def matchDecisionAt (s : List Char) : Option String :=
  if ciStartsWith "\"overall_decision\"".toList s then
    match (s.drop 18).dropWhile isPySpace with
    | ':' :: r2 =>
      match r2.dropWhile isPySpace with
      | '"' :: r4 =>
        if ciStartsWith "pass\"".toList r4 then some (String.mk (r4.take 4))
        else if ciStartsWith "fail\"".toList r4 then some (String.mk (r4.take 4))
        else none
      | _ => none
    | _ => none
  else none

/-- Model of `re.search(r'"overall_decision"\s*:\s*\"(Pass|Fail)\"', raw,
re.IGNORECASE)`: the leftmost position at which the pattern matches wins. -/
def extract_decision : List Char → Option String
  | [] => none
  | c :: rest =>
    match matchDecisionAt (c :: rest) with
    | some d => some d
    | none => extract_decision rest

/-- Outcome of the `generate_content` call: a response text or a raised
exception (carried as its `str(e)` form). -/
inductive GeminiOutcome where
  | ok : String → GeminiOutcome
  | exn : String → GeminiOutcome

/-- Result of the response handler: the parsed structured dict itself (returned
verbatim on strict-parse success) or a `{"decision": ..., "reasoning": ...}`
dict. -/
inductive EvalResult where
  | passJson : PyJson → EvalResult
  | mkDecision : String → String → EvalResult

/-- The duplicated recovery block: pattern-extract a decision token from the raw
text, else degrade to `Cannot Determine` with the raw text as reasoning. -/
def recover_decision (raw : String) : EvalResult :=
  match extract_decision raw.toList with
  | some d => EvalResult.mkDecision d ("Recovered from malformed JSON: " ++ raw)
  | none => EvalResult.mkDecision "Cannot Determine" ("Unexpected response from model: " ++ raw)

/-- The ```` ```json ```` fence-stripping of the structured branch. -/
def cleanFences (text : List Char) : List Char :=
  let c0 := pyStrip text
  let c1 := if startsWithL "```json".toList c0 then pyStrip (c0.drop 7) else c0
  if endsWithL "```".toList c1 then pyStrip (c1.take (c1.length - 3)) else c1

/-- Removal of every `'.'` in `response.text.strip().replace('.', '')`. -/
def stripDots (s : List Char) : List Char := (pyStrip s).filter (fun c => c ≠ '.')

/-- Model of the response handling of `evaluate_l2_rule_with_gemini`
(`l2_rule_evaluator.py` lines 101–147).  When the prompt asks for a JSON
response, the text is fence-stripped and strictly JSON-parsed: success with all
required keys returns the dict; missing keys, a parse error, or a membership
`TypeError` all degrade to `Cannot Determine` (no token extraction on this
path).  Otherwise the dot-stripped text must be exactly one of the three
decision tokens; failing that, the recovery block runs.  A raised exception
also runs the recovery block on `str(e)`. -/
def handle_gemini_response (prompt : String) (out : GeminiOutcome) : EvalResult :=
  match out with
  | GeminiOutcome.exn e => recover_decision e
  | GeminiOutcome.ok text =>
    if containsSub "JSON Response".toList prompt.toList then
      match pyJsonLoads (cleanFences text.toList) with
      | none =>
        EvalResult.mkDecision "Cannot Determine" ("Model returned non-JSON response: " ++ text)
      | some j =>
        match keysOk j with
        | none =>
          EvalResult.mkDecision "Cannot Determine" ("Model returned non-JSON response: " ++ text)
        | some true => EvalResult.passJson j
        | some false =>
          EvalResult.mkDecision "Cannot Determine"
            ("Incomplete JSON response from model: " ++ pyReprJson j)
    else
      if stripDots text.toList = "Pass".toList || stripDots text.toList = "Fail".toList ||
          stripDots text.toList = "Cannot Determine".toList then
        EvalResult.mkDecision (String.mk (stripDots text.toList)) "Simple evaluation."
      else recover_decision text

/-- The decision a caller observes: the `decision` field of a decision dict, or
the marker `"<structured>"` for a structured dict returned verbatim. -/
def decisionOf : EvalResult → String
  | EvalResult.passJson _ => "<structured>"
  | EvalResult.mkDecision d _ => d

/-! ### Concrete environments used by witnesses and counterexamples -/

/-- A catalog knowing `CH01` and `CH02`, with every document submitted. -/
def envAllTrue : RuleEnv :=
  ⟨fun rid =>
    if rid = "CH01" then some "Is the claim form submitted?"
    else if rid = "CH02" then some "Is the aadhaar card submitted?"
    else none,
   fun _ _ => true⟩

/-- A catalog knowing only `CH01` (so `CH04` is unknown), everything submitted. -/
def envMissingCH04 : RuleEnv :=
  ⟨fun rid => if rid = "CH01" then some "Is the claim form submitted?" else none,
   fun _ _ => true⟩

/-- A catalog knowing `CH01` and `CH02`, with nothing submitted. -/
def envNoneSubmitted : RuleEnv :=
  ⟨fun rid =>
    if rid = "CH01" then some "Is the claim form submitted?"
    else if rid = "CH02" then some "Is the aadhaar card submitted?"
    else none,
   fun _ _ => false⟩

/-- A catalog that even knows the three-digit ID `CH123` and reports nothing
submitted — used to show the evaluator never looks `CH123` up. -/
def envKnowsCH123 : RuleEnv :=
  ⟨fun rid => if rid = "CH123" then some "Is the pan card submitted?" else none,
   fun _ _ => false⟩

/-- A claims database with one claim row `8956` carrying a claim-form field. -/
def patientDb : ClaimsDB :=
  ⟨true, false, true, ["claim_form.patient_name", "hospital_bill.amount"],
   fun cid =>
     if cid = "8956" then
       some (fun col => if col = "claim_form.patient_name" then some "John Doe" else none)
     else none⟩

/-- A claims database whose file is missing. -/
def missingDb : ClaimsDB := ⟨false, false, false, [], fun _ => none⟩

/-- A claims database raising an error during the check. -/
def erroringDb : ClaimsDB :=
  ⟨true, true, true, ["claim_form.patient_name"],
   fun _ => some (fun _ => some "x")⟩

/-- L1 environment in which `CH01` exists but its document is not submitted. -/
def l1EnvGate : L1Env :=
  ⟨true, false,
   (fun rid => if rid = "CH01" then some "Is the claim form submitted?" else none),
   (fun _ _ => false),
   (fun rid => if rid = "CH01" then ["Patient Name", "Admission Date"] else []),
   (fun rid =>
     if rid = "CH01" then [⟨"L1_01_01", "Patient Name", some "SELECT 1"⟩] else [])⟩

/-- Child field rules exercising every query outcome. -/
def l1RulesFour : List L1Rule :=
  [⟨"L1_01", "Field A", some "Q1"⟩, ⟨"L1_02", "Field B", some "Q2"⟩,
   ⟨"L1_03", "Field C", some "Q3"⟩, ⟨"L1_04", "Field D", some "Q4"⟩]

/-- L1 environment whose `CH01` has the four field rules above. -/
def l1EnvQueries : L1Env :=
  ⟨true, false, (fun _ => none), (fun _ _ => true), (fun _ => []),
   (fun rid => if rid = "CH01" then l1RulesFour else [])⟩

/-- An oracle giving a no-row, a scalar row, a two-column row, and an error. -/
def oracleMixed : QueryOracle := fun sql _ =>
  if sql = "Q1" then QRes.noRow
  else if sql = "Q2" then QRes.row [SqlCell.cText "John Doe"]
  else if sql = "Q3" then QRes.row [SqlCell.cText "a", SqlCell.cInt 2]
  else QRes.err "no such table"

/-- An oracle on which every query fails. -/
def oracleDown : QueryOracle := fun _ _ => QRes.err "database is locked"

/-! ## Theorems -/

/-- `strLtB` decides the lexicographic extension of `<` on characters. -/
theorem strLtB_iff_lex : ∀ (as bs : List Char),
    strLtB as bs = true ↔ List.Lex (· < ·) as bs
  | [], [] => by
    constructor
    · intro h; simp [strLtB] at h
    · intro h; cases h
  | [], b :: bs => by
    constructor
    · intro _; exact List.Lex.nil
    · intro _; rfl
  | a :: as, [] => by
    constructor
    · intro h; simp [strLtB] at h
    · intro h; cases h
  | a :: as, b :: bs => by
    by_cases hab : a < b
    · constructor
      · intro _; exact List.Lex.rel hab
      · intro _; simp [strLtB, hab]
    · by_cases hba : b < a
      · constructor
        · intro h; simp [strLtB, hab, hba] at h
        · intro h
          cases h with
          | cons h => exact absurd hba (lt_irrefl _)
          | rel h => exact absurd h hab
      · have heq : a = b := le_antisymm (not_lt.mp hba) (not_lt.mp hab)
        subst heq
        constructor
        · intro h
          simp only [strLtB, if_neg hab, if_neg hba] at h
          exact List.Lex.cons ((strLtB_iff_lex as bs).mp h)
        · intro h
          have h2 : List.Lex (· < ·) as bs := by
            cases h with
            | cons h => exact h
            | rel h => exact absurd h (lt_irrefl _)
          simp only [strLtB, if_neg hab, if_neg hba]
          exact (strLtB_iff_lex as bs).mpr h2

/-- `pyStrLe` agrees with the library order on `String`. -/
theorem pyStrLe_iff (a b : String) : pyStrLe a b ↔ a ≤ b := by
  rw [String.le_iff_toList_le, ← not_lt]
  unfold pyStrLe
  constructor
  · intro h hc
    have hlex : strLtB b.toList a.toList = true := (strLtB_iff_lex _ _).mpr hc
    rw [h] at hlex
    exact Bool.noConfusion hlex
  · intro h
    cases hx : strLtB b.toList a.toList with
    | false => rfl
    | true => exact absurd ((strLtB_iff_lex _ _).mp hx) h

/-- The rule-processing loop, stated declaratively: the status dict is the rule
IDs paired with their submission booleans, in order, and the failure list is the
failing IDs' entries, in order. -/
theorem processRulesAux_eq (env : RuleEnv) (claim : String) (ids : List String) :
    ∀ (sts : List (String × Bool)) (fails : List String),
    processRulesAux env claim ids sts fails =
      (sts ++ ids.map (fun rid => (rid, ruleStatus env claim rid)),
       fails ++ (ids.filter (fun rid => !ruleStatus env claim rid)).map (failEntry env)) := by
  induction ids with
  | nil => intro sts fails; simp [processRulesAux]
  | cons rid rest ih =>
    intro sts fails
    cases h : env.catalog rid with
    | none =>
      have hstat : ruleStatus env claim rid = false := by simp [ruleStatus, h]
      have hent : failEntry env rid = notFoundMsg rid := by simp [failEntry, h]
      simp [processRulesAux, h, ih, hstat, hent, List.filter_cons]
    | some desc =>
      have hstat : ruleStatus env claim rid = env.submitted claim desc := by
        simp [ruleStatus, h]
      have hent : failEntry env rid = desc := by simp [failEntry, h]
      cases hs : env.submitted claim desc with
      | false =>
        simp [processRulesAux, h, hs, ih, hstat, hent, List.filter_cons]
      | true =>
        simp [processRulesAux, h, hs, ih, hstat, hent, List.filter_cons]

theorem process_rules_eq (env : RuleEnv) (claim : String) (ids : List String) :
    process_rules env claim ids =
      (ids.map (fun rid => (rid, ruleStatus env claim rid)),
       (ids.filter (fun rid => !ruleStatus env claim rid)).map (failEntry env)) := by
  simpa [process_rules] using processRulesAux_eq env claim ids [] []

/-- C1: the expression evaluator computes `[...]` groups as the conjunction of
their elements and `(...)` groups as the disjunction, including nested groups:
`"[True, True]"` is True, `"[True, False]"` is False, `"(False, True)"` is True,
`"(False, False)"` is False, and `"[CH01, (CH02, CH03)]"` with CH01 = True,
CH02 = False, CH03 = True is True.  The literal-only expressions contain no
leaf check-rule IDs, so they evaluate the same under every assignment of
booleans to `CH01`–`CH03`. -/
theorem c1_bracket_and_paren_semantics :
    ∀ b₁ b₂ b₃ : Bool,
    evaluate_logical_expression "[True, True]"
      [("CH01", b₁), ("CH02", b₂), ("CH03", b₃)] = true ∧
    evaluate_logical_expression "[True, False]"
      [("CH01", b₁), ("CH02", b₂), ("CH03", b₃)] = false ∧
    evaluate_logical_expression "(False, True)"
      [("CH01", b₁), ("CH02", b₂), ("CH03", b₃)] = true ∧
    evaluate_logical_expression "(False, False)"
      [("CH01", b₁), ("CH02", b₂), ("CH03", b₃)] = false ∧
    evaluate_logical_expression "[CH01, (CH02, CH03)]"
      [("CH01", true), ("CH02", false), ("CH03", true)] = true := by
  decide

/-- C2 counterexample: the claim says every malformed expression evaluates to
overall True with an empty failure list, but a malformed expression that
contains valid two-digit rule IDs reaches the reduction loop, never reduces to
`"True"`, and yields overall False even though both documents are submitted and
the failure list is empty — shown both for `"CH01 AND CH02"` (not bracket
syntax) and for `"[CH01, CH02"` (unclosed bracket). -/
theorem c2_counterexample :
    evaluate_submission_logic envAllTrue "CH01 AND CH02" "8956" ≠ (true, []) ∧
    evaluate_submission_logic envAllTrue "CH01 AND CH02" "8956" = (false, []) ∧
    evaluate_submission_logic envAllTrue "[CH01, CH02" "8956" = (false, []) := by
  refine ⟨by decide, by decide, by decide⟩

/-- C2 (amended): an empty expression string, or one in which the leaf-ID
pattern `CH`+two digits matches nothing, returns overall True with an empty
failure list; a malformed expression that does contain leaf IDs falls through
to evaluation and fails closed. -/
theorem c2_amended_vacuous_pass (env : RuleEnv) (claim expr : String) :
    (expr = "" → evaluate_submission_logic env expr claim = (true, [])) ∧
    (find_rule_ids expr = [] → evaluate_submission_logic env expr claim = (true, [])) := by
  constructor
  · intro h; simp [evaluate_submission_logic, h]
  · intro h
    by_cases he : expr = ""
    · simp [evaluate_submission_logic, he]
    · simp [evaluate_submission_logic, he, sortedRuleIds, h, List.insertionSort]

/-- Witness for C2 (amended) at the empty expression and at a rule-ID-free
malformed expression. -/
theorem c2_amended_witness :
    evaluate_submission_logic envAllTrue "" "8956" = (true, []) ∧
    evaluate_submission_logic envAllTrue "hello world" "8956" = (true, []) :=
  ⟨(c2_amended_vacuous_pass envAllTrue "8956" "").1 rfl,
   (c2_amended_vacuous_pass envAllTrue "8956" "hello world").2 (by decide)⟩

/-- C3: a leaf check-rule ID with no catalog description gets submission status
False (fails closed) and contributes the failure entry
`"<ID>: Rule definition not found in database."`; the embedding is a total
function, so no exception reaches the caller. -/
theorem c3_unknown_rule_fails_closed (env : RuleEnv) (expr claim rid : String)
    (hmem : rid ∈ sortedRuleIds expr) (hnone : env.catalog rid = none) :
    (rid, false) ∈ (process_rules env claim (sortedRuleIds expr)).1 ∧
    notFoundMsg rid ∈ (evaluate_submission_logic env expr claim).2 := by
  have hstat : ruleStatus env claim rid = false := by simp [ruleStatus, hnone]
  have hpr := process_rules_eq env claim (sortedRuleIds expr)
  constructor
  · rw [hpr]
    have := List.mem_map_of_mem (fun r => (r, ruleStatus env claim r)) hmem
    simpa [hstat] using this
  · have hids : sortedRuleIds expr ≠ [] := by
      intro h0; rw [h0] at hmem; simp at hmem
    have hexpr : expr ≠ "" := by
      intro h0; subst h0
      have : sortedRuleIds "" = [] := by decide
      rw [this] at hmem; simp at hmem
    simp only [evaluate_submission_logic, if_neg hexpr, if_neg hids]
    rw [hpr]
    refine List.mem_map.mpr ⟨rid, List.mem_filter.mpr ⟨hmem, by simp [hstat]⟩, ?_⟩
    simp [failEntry, hnone]

/-- Witness for C3: in `"[CH01, CH04]"` with `CH04` absent from the catalog,
`CH04` is assigned False and the not-found entry appears in the failure list. -/
theorem c3_witness :
    ("CH04" ∈ sortedRuleIds "[CH01, CH04]" ∧ envMissingCH04.catalog "CH04" = none) ∧
    (("CH04", false) ∈ (process_rules envMissingCH04 "8956" (sortedRuleIds "[CH01, CH04]")).1 ∧
     notFoundMsg "CH04" ∈ (evaluate_submission_logic envMissingCH04 "[CH01, CH04]" "8956").2) :=
  ⟨⟨by decide, by decide⟩,
   c3_unknown_rule_fails_closed envMissingCH04 "[CH01, CH04]" "8956" "CH04"
     (by decide) (by decide)⟩

/-- C4: the returned failure list is exactly the image, in order, of the
failing IDs among the distinct leaf IDs, and those leaf IDs are sorted and
duplicate-free — so there is exactly one entry per distinct failing leaf ID, in
leaf-ID sorted order rather than expression-tree order (the last conjunct shows
the order flip concretely on the tree `[CH02, CH01]`). -/
theorem c4_failed_descriptions_sorted (env : RuleEnv) (expr claim : String) :
    (evaluate_submission_logic env expr claim).2 =
      ((sortedRuleIds expr).filter (fun rid => !ruleStatus env claim rid)).map
        (failEntry env) ∧
    (sortedRuleIds expr).Sorted (· ≤ ·) ∧ (sortedRuleIds expr).Nodup ∧
    (evaluate_submission_logic envNoneSubmitted "[CH02, CH01]" "8956").2 =
      ["Is the claim form submitted?", "Is the aadhaar card submitted?"] := by
  refine ⟨?_, ?_, ?_, by decide⟩
  · by_cases hexpr : expr = ""
    · subst hexpr
      have h0 : sortedRuleIds "" = [] := by decide
      simp [evaluate_submission_logic, h0]
    · by_cases hids : sortedRuleIds expr = []
      · simp [evaluate_submission_logic, hexpr, hids]
      · simp only [evaluate_submission_logic, if_neg hexpr, if_neg hids]
        rw [process_rules_eq]
  · have htot : IsTotal String pyStrLe :=
      ⟨fun a b => by rw [pyStrLe_iff, pyStrLe_iff]; exact le_total a b⟩
    have htrans : IsTrans String pyStrLe :=
      ⟨fun a b c hab hbc => by
        rw [pyStrLe_iff] at *
        exact le_trans hab hbc⟩
    exact (List.sorted_insertionSort pyStrLe _).imp (fun h => (pyStrLe_iff _ _).mp h)
  · exact (List.perm_insertionSort _ _).nodup_iff.mpr (List.nodup_dedup _)

/-- C5: under the guard conditions, the submission check returns True exactly
when the claim has a row and some column whose (lowercased) name contains the
normalized keyword holds a non-null value that is non-empty after stripping —
a logical OR across all matched columns.  No matching column, no claim row, or
all-empty matched values give False. -/
theorem c5_submission_iff (db : ClaimsDB) (claim kw : String)
    (h1 : db.db_exists = true) (h2 : db.db_error = false) (h3 : db.table_exists = true)
    (h4 : claim ≠ "") (h5 : kw ≠ "") :
    check_document_submission_status claim kw db = true ↔
      ∃ r, db.getRow claim = some r ∧
        ∃ col ∈ relevantColumns kw db.columns, cellNonEmpty (r col) = true := by
  simp only [check_document_submission_status, h1, h2, h3, Bool.not_true, Bool.false_eq_true,
    if_false, if_neg h4, if_neg h5]
  by_cases hcols : db.columns = []
  · simp [hcols, relevantColumns]
  · simp only [if_neg hcols]
    by_cases hrel : relevantColumns kw db.columns = []
    · simp [hrel]
    · simp only [if_neg hrel]
      cases hrow : db.getRow claim with
      | none =>
        simp
      | some r =>
        simp [List.any_eq_true]

/-- Witness for C5: claim `8956` has a non-empty `claim_form.patient_name`
field, so the claim form counts as submitted. -/
theorem c5_witness :
    check_document_submission_status "8956" "Is the claim form submitted?" patientDb = true :=
  (c5_submission_iff patientDb "8956" "Is the claim form submitted?" rfl rfl rfl
      (by decide) (by decide)).mpr
    ⟨fun col => if col = "claim_form.patient_name" then some "John Doe" else none, rfl,
     "claim_form.patient_name", by decide, by decide⟩

/-- C10: the submission check fails closed — a missing database file, an empty
claim ID, an empty document keyword, or a database error each yield False (and
the embedding is a total function, so nothing is raised). -/
theorem c10_fail_closed (db : ClaimsDB) (claim kw : String) :
    (db.db_exists = false → check_document_submission_status claim kw db = false) ∧
    (claim = "" → check_document_submission_status claim kw db = false) ∧
    (kw = "" → check_document_submission_status claim kw db = false) ∧
    (db.db_error = true → check_document_submission_status claim kw db = false) := by
  refine ⟨?_, ?_, ?_, ?_⟩ <;> intro h <;>
    simp [check_document_submission_status, h]

/-- Witness for C10 at a missing database, empty claim ID, empty keyword, and
an erroring database. -/
theorem c10_witness :
    check_document_submission_status "8956" "Is the claim form submitted?" missingDb = false ∧
    check_document_submission_status "" "Is the claim form submitted?" patientDb = false ∧
    check_document_submission_status "8956" "" patientDb = false ∧
    check_document_submission_status "8956" "Is the claim form submitted?" erroringDb = false :=
  ⟨(c10_fail_closed missingDb "8956" "Is the claim form submitted?").1 rfl,
   (c10_fail_closed patientDb "" "Is the claim form submitted?").2.1 rfl,
   (c10_fail_closed patientDb "8956" "").2.2.1 rfl,
   (c10_fail_closed erroringDb "8956" "Is the claim form submitted?").2.2.2 rfl⟩

/-- C6: when the parent check rule's description is missing from the catalog the
resolver returns the single configuration-error entry, and when the parent
document is not submitted it returns one `"Not submitted"` entry per child field
rule and its output does not depend on the query oracle at all (no extraction
query is executed). -/
theorem c6_dependency_gate (env : L1Env) (o : QueryOracle) (check_rule_id claim_id : String)
    (hdb : env.rules_db_exists = true) (hid : check_rule_id ≠ "") (hclaim : claim_id ≠ "") :
    (env.catalog check_rule_id = none →
      get_l1_rules_with_values_for_check_id env o check_rule_id claim_id =
        [configErrorEntry check_rule_id]) ∧
    (∀ desc, env.catalog check_rule_id = some desc → desc ≠ "" →
      env.submitted claim_id desc = false →
      get_l1_rules_with_values_for_check_id env o check_rule_id claim_id =
        (env.child_descriptions check_rule_id).map
          (fun d => ⟨none, d, PyVal.vStr "Not submitted"⟩) ∧
      ∀ o2 : QueryOracle,
        get_l1_rules_with_values_for_check_id env o check_rule_id claim_id =
          get_l1_rules_with_values_for_check_id env o2 check_rule_id claim_id) := by
  constructor
  · intro hnone
    simp [get_l1_rules_with_values_for_check_id, hdb, hid, hclaim, hnone]
  · intro desc hsome hdesc hsub
    constructor
    · simp [get_l1_rules_with_values_for_check_id, hdb, hid, hclaim, hsome, hdesc, hsub]
    · intro o2
      simp [get_l1_rules_with_values_for_check_id, hdb, hid, hclaim, hsome, hdesc, hsub]

/-- Witness for C6: `CH01` exists but is not submitted; the two child field
rules come back as `"Not submitted"`, identically under a completely failing
oracle. -/
theorem c6_witness :
    get_l1_rules_with_values_for_check_id l1EnvGate oracleMixed "CH01" "8956" =
      [⟨none, "Patient Name", PyVal.vStr "Not submitted"⟩,
       ⟨none, "Admission Date", PyVal.vStr "Not submitted"⟩] ∧
    get_l1_rules_with_values_for_check_id l1EnvGate oracleMixed "CH01" "8956" =
      get_l1_rules_with_values_for_check_id l1EnvGate oracleDown "CH01" "8956" := by
  have h := (c6_dependency_gate l1EnvGate oracleMixed "CH01" "8956" rfl (by decide)
      (by decide)).2 "Is the claim form submitted?" rfl (by decide) rfl
  exact ⟨h.1.trans (by rfl), h.2 oracleDown⟩

/-- The with-values loop, stated declaratively. -/
theorem fetchL1Aux_eq (o : QueryOracle) (claim : String) (rs : List L1Rule) :
    ∀ acc, fetchL1Aux o claim rs acc =
      acc ++ rs.map (fun r =>
        ⟨some r.rule_id, r.description, runL1Query o claim r.sql_query⟩) := by
  induction rs with
  | nil => intro acc; simp [fetchL1Aux]
  | cons r rest ih => intro acc; simp [fetchL1Aux, ih]

/-- C7: the field value resolver maps each child field rule independently: no
fetched row gives `"N/A"`, a single-column row gives the scalar, a multi-column
row is kept whole, and an execution error for one rule becomes an in-band error
string for that rule only — every sibling entry is still produced (the output
length always matches the child-rule count, and each entry depends only on its
own rule's query result). -/
theorem c7_per_rule_mapping (env : L1Env) (o : QueryOracle) (check_rule_id claim_id : String)
    (i : Nat) (r : L1Rule)
    (herr : env.rules_db_error = false)
    (hrule : (env.child_rules check_rule_id).get? i = some r) :
    (fetch_l1_rule_descriptions_with_values env o check_rule_id claim_id).length =
      (env.child_rules check_rule_id).length ∧
    ∃ e, (fetch_l1_rule_descriptions_with_values env o check_rule_id claim_id).get? i = some e ∧
      e.rule_id = some r.rule_id ∧ e.description = r.description ∧
      (∀ sql, r.sql_query = some sql → sql ≠ "" →
        ((o sql claim_id = QRes.noRow → e.value = PyVal.vStr "N/A") ∧
         (∀ c, o sql claim_id = QRes.row [c] → e.value = cellToVal c) ∧
         (∀ cs, o sql claim_id = QRes.row cs → cs.length ≠ 1 → e.value = PyVal.vRow cs) ∧
         (∀ m, o sql claim_id = QRes.err m →
            e.value = PyVal.vStr ("Error executing SQL: " ++ m)))) ∧
      (∀ o2 : QueryOracle, (∀ sql, r.sql_query = some sql → o2 sql claim_id = o sql claim_id) →
        (fetch_l1_rule_descriptions_with_values env o2 check_rule_id claim_id).get? i =
          some e) := by
  have hfet : ∀ o' : QueryOracle,
      fetch_l1_rule_descriptions_with_values env o' check_rule_id claim_id =
        (env.child_rules check_rule_id).map (fun r =>
          ⟨some r.rule_id, r.description, runL1Query o' claim_id r.sql_query⟩) := by
    intro o'
    simp [fetch_l1_rule_descriptions_with_values, herr, fetchL1Aux_eq]
  constructor
  · rw [hfet]; simp
  · refine ⟨⟨some r.rule_id, r.description, runL1Query o claim_id r.sql_query⟩, ?_, rfl, rfl,
      ?_, ?_⟩
    · rw [hfet, List.get?_map, hrule]; rfl
    · intro sql hsql hne
      refine ⟨?_, ?_, ?_, ?_⟩
      · intro h; simp [runL1Query, hsql, hne, h]
      · intro c h; simp [runL1Query, hsql, hne, h]
      · intro cs h hlen
        cases cs with
        | nil => simp [runL1Query, hsql, hne, h]
        | cons c t =>
          cases t with
          | nil => simp at hlen
          | cons c2 t2 => simp [runL1Query, hsql, hne, h]
      · intro m h; simp [runL1Query, hsql, hne, h]
    · intro o2 hagree
      rw [hfet o2, List.get?_map, hrule]
      cases hq : r.sql_query with
      | none => simp [runL1Query, hq]
      | some sql => simp [runL1Query, hq, hagree sql hq]

/-- Witness for C7 at the error-producing fourth rule of `l1EnvQueries` under
`oracleMixed` (which also exercises the no-row, scalar, and multi-column
cases). -/
theorem c7_witness :
    ((l1EnvQueries.child_rules "CH01").get? 3 = some ⟨"L1_04", "Field D", some "Q4"⟩ ∧
     fetch_l1_rule_descriptions_with_values l1EnvQueries oracleMixed "CH01" "8956" =
       [⟨some "L1_01", "Field A", PyVal.vStr "N/A"⟩,
        ⟨some "L1_02", "Field B", PyVal.vStr "John Doe"⟩,
        ⟨some "L1_03", "Field C", PyVal.vRow [SqlCell.cText "a", SqlCell.cInt 2]⟩,
        ⟨some "L1_04", "Field D", PyVal.vStr "Error executing SQL: no such table"⟩]) ∧
    ((fetch_l1_rule_descriptions_with_values l1EnvQueries oracleMixed "CH01" "8956").length =
      (l1EnvQueries.child_rules "CH01").length ∧
     ∃ e, (fetch_l1_rule_descriptions_with_values l1EnvQueries oracleMixed
            "CH01" "8956").get? 3 = some e ∧
       e.rule_id = some "L1_04" ∧ e.description = "Field D" ∧
       (∀ sql, (some "Q4" : Option String) = some sql → sql ≠ "" →
         ((oracleMixed sql "8956" = QRes.noRow → e.value = PyVal.vStr "N/A") ∧
          (∀ c, oracleMixed sql "8956" = QRes.row [c] → e.value = cellToVal c) ∧
          (∀ cs, oracleMixed sql "8956" = QRes.row cs → cs.length ≠ 1 →
             e.value = PyVal.vRow cs) ∧
          (∀ m, oracleMixed sql "8956" = QRes.err m →
             e.value = PyVal.vStr ("Error executing SQL: " ++ m)))) ∧
       (∀ o2 : QueryOracle,
          (∀ sql, (some "Q4" : Option String) = some sql → o2 sql "8956" = oracleMixed sql "8956") →
          (fetch_l1_rule_descriptions_with_values l1EnvQueries o2 "CH01" "8956").get? 3 =
            some e)) :=
  ⟨⟨by decide, by decide⟩,
   c7_per_rule_mapping l1EnvQueries oracleMixed "CH01" "8956" 3 ⟨"L1_04", "Field D", some "Q4"⟩
     rfl (by decide)⟩

/-- C8 counterexample: on the structured (JSON-expected) path, a malformed
response that does contain a recognizable embedded decision token — the
extraction regex finds `Pass` in it — still degrades straight to
`Cannot Determine`; no pattern extraction is attempted on this path, contrary
to the claim. -/
theorem c8_counterexample :
    extract_decision "oops \"overall_decision\": \"Pass\"".toList = some "Pass" ∧
    handle_gemini_response "Respond with a JSON Response in this format"
        (GeminiOutcome.ok "oops \"overall_decision\": \"Pass\"") =
      EvalResult.mkDecision "Cannot Determine"
        ("Model returned non-JSON response: " ++ "oops \"overall_decision\": \"Pass\"") ∧
    decisionOf (handle_gemini_response "Respond with a JSON Response in this format"
        (GeminiOutcome.ok "oops \"overall_decision\": \"Pass\"")) ≠ "Pass" := by
  refine ⟨rfl, rfl, by decide⟩

/-- C8 (amended): the adapter never raises (it is a total function) and
degrades as follows.  On the plain path, a response that is not one of the
three decision tokens undergoes pattern extraction: an embedded decision token
yields that decision, otherwise `Cannot Determine` with the raw text as
reasoning; a service exception follows the same recovery on `str(e)`.  On the
structured path, a response that fails strict JSON parsing degrades directly to
`Cannot Determine` carrying the raw text — without attempting token
extraction. -/
theorem c8_amended_degrade (prompt text emsg d : String) :
    (containsSub "JSON Response".toList prompt.toList = false →
      stripDots text.toList ≠ "Pass".toList →
      stripDots text.toList ≠ "Fail".toList →
      stripDots text.toList ≠ "Cannot Determine".toList →
      ((extract_decision text.toList = some d →
         handle_gemini_response prompt (GeminiOutcome.ok text) =
           EvalResult.mkDecision d ("Recovered from malformed JSON: " ++ text)) ∧
       (extract_decision text.toList = none →
         handle_gemini_response prompt (GeminiOutcome.ok text) =
           EvalResult.mkDecision "Cannot Determine"
             ("Unexpected response from model: " ++ text)))) ∧
    ((extract_decision emsg.toList = some d →
       handle_gemini_response prompt (GeminiOutcome.exn emsg) =
         EvalResult.mkDecision d ("Recovered from malformed JSON: " ++ emsg)) ∧
     (extract_decision emsg.toList = none →
       handle_gemini_response prompt (GeminiOutcome.exn emsg) =
         EvalResult.mkDecision "Cannot Determine"
           ("Unexpected response from model: " ++ emsg))) ∧
    (containsSub "JSON Response".toList prompt.toList = true →
      pyJsonLoads (cleanFences text.toList) = none →
      handle_gemini_response prompt (GeminiOutcome.ok text) =
        EvalResult.mkDecision "Cannot Determine"
          ("Model returned non-JSON response: " ++ text)) := by
  refine ⟨?_, ⟨?_, ?_⟩, ?_⟩
  · intro hplain h1 h2 h3
    have hbor : (decide (stripDots text.toList = "Pass".toList) ||
        decide (stripDots text.toList = "Fail".toList) ||
        decide (stripDots text.toList = "Cannot Determine".toList)) = false := by
      simp only [h1, h2, h3, decide_eq_true_eq, Bool.or_eq_false_iff, decide_eq_false_iff_not,
        not_false_eq_true, and_self]
    constructor
    · intro hext
      unfold handle_gemini_response
      rw [hplain]
      simp only [Bool.false_eq_true, if_false]
      rw [hbor]
      simp only [Bool.false_eq_true, if_false]
      unfold recover_decision
      rw [hext]
    · intro hext
      unfold handle_gemini_response
      rw [hplain]
      simp only [Bool.false_eq_true, if_false]
      rw [hbor]
      simp only [Bool.false_eq_true, if_false]
      unfold recover_decision
      rw [hext]
  · intro hext
    show recover_decision emsg = _
    unfold recover_decision
    rw [hext]
  · intro hext
    show recover_decision emsg = _
    unfold recover_decision
    rw [hext]
  · intro hjsonp hfail
    unfold handle_gemini_response
    rw [hjsonp]
    simp only [if_true]
    rw [hfail]

/-- Witness for C8 (amended): a plain-path response carrying an embedded `Fail`
token is recovered as `Fail`, and a service exception with no token degrades to
`Cannot Determine`. -/
theorem c8_amended_witness :
    handle_gemini_response "simple rule check"
        (GeminiOutcome.ok "oops \"overall_decision\": \"Fail\"") =
      EvalResult.mkDecision "Fail"
        ("Recovered from malformed JSON: " ++ "oops \"overall_decision\": \"Fail\"") ∧
    handle_gemini_response "simple rule check" (GeminiOutcome.exn "HTTP 503") =
      EvalResult.mkDecision "Cannot Determine"
        ("Unexpected response from model: " ++ "HTTP 503") :=
  ⟨((c8_amended_degrade "simple rule check" "oops \"overall_decision\": \"Fail\"" "HTTP 503"
        "Fail").1 (by decide) (by decide) (by decide) (by decide)).1 (by decide),
   ((c8_amended_degrade "simple rule check" "oops \"overall_decision\": \"Fail\"" "HTTP 503"
        "Fail").2.1).2 (by decide)⟩

/-- C9 counterexample: the catalog parser (`CH` + two **or more** digits)
extracts `CH123`, but the evaluator's leaf collection (`\b(CH\d{2})\b`, exactly
two digits between word boundaries) extracts nothing from the same text — so
the two recognizers are not the same pattern, and the evaluator vacuously
passes an expression whose only leaf is `CH123` even though the catalog knows
that ID. -/
theorem c9_counterexample :
    parse_rule_ids "CH123" = ["CH123"] ∧
    find_rule_ids "CH123" = [] ∧
    evaluate_submission_logic envKnowsCH123 "CH123" "8956" = (true, []) := by
  exact ⟨by decide, by decide, by decide⟩

/-- Shape of a successful boundary match: the digit run really is a digit run
of the demanded length. -/
theorem chMatchAt_shape (tp prev : Bool) (s : List Char) (ds r3 : List Char)
    (h : chMatchAt tp prev s = some (ds, r3)) :
    (∀ c ∈ ds, c.isDigit = true) ∧
      (tp = true → 2 ≤ ds.length) ∧ (tp = false → ds.length = 2) := by
  unfold chMatchAt at h
  split at h
  · exact absurd h (by simp)
  · split at h
    · split at h
      · split at h
        · rename_i hlen
          simp only [Option.some.injEq, Prod.mk.injEq] at h
          obtain ⟨hds, _⟩ := h
          subst hds
          have hl := Bool.and_elim_left hlen
          refine ⟨fun c hc => List.mem_takeWhile_imp hc, ?_, ?_⟩
          · intro htp; rw [htp] at hl; simpa [chLenOk] using hl
          · intro htp; rw [htp] at hl; simpa [chLenOk] using hl
        · exact absurd h (by simp)
      · exact absurd h (by simp)
    · exact absurd h (by simp)

/-- Every ID produced by the scanner is `CH` followed by a digit run of the
demanded length. -/
theorem chScanAux_shape (tp : Bool) :
    ∀ (f : Nat) (prev : Bool) (s : List Char) (id : String),
      id ∈ chScanAux tp f prev s →
      ∃ ds : List Char, id = String.mk ('C' :: 'H' :: ds) ∧
        (∀ c ∈ ds, c.isDigit = true) ∧
        (tp = true → 2 ≤ ds.length) ∧ (tp = false → ds.length = 2) := by
  intro f
  induction f with
  | zero => intro prev s id h; simp [chScanAux] at h
  | succ f ih =>
    intro prev s id h
    cases s with
    | nil => simp [chScanAux] at h
    | cons c rest =>
      rw [chScanAux] at h
      cases hm : chMatchAt tp prev (c :: rest) with
      | none =>
        rw [hm] at h
        exact ih (isWordChar c) rest id h
      | some p =>
        rw [hm] at h
        cases h with
        | head =>
          have hs := chMatchAt_shape tp prev (c :: rest) p.1 p.2 (by rw [hm])
          exact ⟨p.1, rfl, hs.1, hs.2.1, hs.2.2⟩
        | tail _ h2 => exact ih true p.2 id h2

/-- C9 (amended): the catalog's procedure-rule parsing recognizes exactly the
word-boundary-delimited tokens `CH` + **two or more** digits, while the
evaluator's leaf collection recognizes only `CH` + **exactly two** digits; the
two agree on two-digit IDs (bracket syntax ignored), and an ID with three or
more digits is extracted by the catalog parser but invisible to the
evaluator. -/
theorem c9_amended_recognizers :
    (∀ (s : String) (id : String), id ∈ find_rule_ids s →
      ∃ ds : List Char, id = String.mk ('C' :: 'H' :: ds) ∧
        (∀ c ∈ ds, c.isDigit = true) ∧ ds.length = 2) ∧
    (∀ (s : String) (id : String), id ∈ parse_rule_ids s →
      ∃ ds : List Char, id = String.mk ('C' :: 'H' :: ds) ∧
        (∀ c ∈ ds, c.isDigit = true) ∧ 2 ≤ ds.length) ∧
    find_rule_ids "[CH01, (CH02, CH13)]" = ["CH01", "CH02", "CH13"] ∧
    parse_rule_ids "[CH01, (CH02, CH13)]" = ["CH01", "CH02", "CH13"] ∧
    parse_rule_ids "[CH123, CH01]" = ["CH123", "CH01"] ∧
    find_rule_ids "[CH123, CH01]" = ["CH01"] := by
  refine ⟨?_, ?_, by decide, by decide, by decide, by decide⟩
  · intro s id h
    obtain ⟨ds, h1, h2, _, h4⟩ := chScanAux_shape false _ _ _ id h
    exact ⟨ds, h1, h2, h4 rfl⟩
  · intro s id h
    obtain ⟨ds, h1, h2, h3, _⟩ := chScanAux_shape true _ _ _ id h
    exact ⟨ds, h1, h2, h3 rfl⟩

/-- Witness for C9 (amended): the evaluator-extracted ID `CH12` has shape
`CH` + exactly two digits. -/
theorem c9_amended_witness :
    ∃ ds : List Char, "CH12" = String.mk ('C' :: 'H' :: ds) ∧
      (∀ c ∈ ds, c.isDigit = true) ∧ ds.length = 2 :=
  c9_amended_recognizers.1 "xCH12 CH12" "CH12" (by decide)

end InsuranceOCR
